import Mathlib

/-!
Verification of the template composition and rendering pipeline of the
`template` library (`src/index.js`): layout resolution, context merging,
engine dispatch, the collection registry and the generated default helpers,
shallowly embedded in Lean. JavaScript objects are modelled as association
lists or as finite string-keyed maps, thrown errors as explicit error
constructors, and callback delivery as a sum type of outcomes.
-/

namespace Template

/-- Failure raised by the layout resolver. `layoutCycle` models the error
thrown when the layout chain revisits an already-visited layout; `fuelOut`
is the exhaustion marker of the explicit step budget used to model the
while-loop of the resolver (proved unreachable for the budget the resolver
passes). -/
inductive LayoutErr where
  | layoutCycle (name : String)
  | fuelOut
deriving DecidableEq

/-- Slice of the options sub-object of a stored template record
(`template.options`) read and written by the layout and compile stages. -/
structure TmplOpts where
  layoutApplied : Bool := false
  isPartial : Bool := false
  layout : Option String := none
deriving DecidableEq

/-- A stored template record (§3 of the design: `key` is the association-list
key where records are stored). `fn` is the cached compiled function,
modelled as the compiled content string. -/
structure Tmpl where
  content : String
  layout : Option String := none
  data : List (String × String) := []
  locals : List (String × String) := []
  fn : Option String := none
  options : TmplOpts := {}
deriving DecidableEq

/-- Key lookup in a JavaScript object modelled as an association list
(first match wins). -/
def lookupKey {β : Type} (name : String) : List (String × β) → Option β
  | [] => none
  | (k, v) :: rest => if name = k then some v else lookupKey name rest

/-- Replacement of every occurrence of `tag` in a character list by `repl`,
with an explicit fuel (one unit per consumed character, so the haystack
length is always sufficient). The replacement text is not rescanned,
matching JavaScript regex replacement. -/
def replaceBodyAux (tag repl : List Char) : Nat → List Char → List Char
  | 0, rest => rest
  | _ + 1, [] => []
  | fuel + 1, c :: rest =>
    if tag.isPrefixOf (c :: rest) then
      repl ++ replaceBodyAux tag repl fuel (List.drop tag.length (c :: rest))
    else
      c :: replaceBodyAux tag repl fuel rest

/-- Modelled from the spec: the body-placeholder substitution of the external
`layouts` engine used by `applyLayout` (§4.6 "substitute the ancestor's
designated body placeholder token in the ancestor's content with content").
The default layout delimiters `['{%', '%}']` and layout tag `body`
(`defaultOptions`, src/index.js) give the placeholder token `{%body%}`;
the whitespace-tolerant matching of the real regex is not modelled (the
spec's concrete cases use the exact token). -/
def replaceBody (repl hay : String) : String :=
  String.mk (replaceBodyAux "{%body%}".toList repl.toList hay.toList.length hay.toList)

/-- Keys of the layout stack not yet visited: the decreasing measure of the
layout-resolution loop. -/
def unvisited (stack : List (String × Tmpl)) (visited : List String) : List String :=
  (stack.map Prod.fst).filter (fun k => decide (k ∉ visited))

/-- Modelled from the spec: the wrapping loop of the external `layouts` npm
module as called by `Template.prototype.applyLayout` (§4.6): while the
current layout name is set and not yet visited, find it in the merged layout
stack (a missing layout lets the content pass through unchanged, the
recoverable non-strict behaviour), substitute its body placeholder with the
accumulated content and advance to the ancestor's own declared layout; a
revisited name raises the layout-cycle error. The `budget` list makes the
loop structurally recursive; the budget passed by `layouts` is proved
sufficient below. -/
def layoutsWrap (stack : List (String × Tmpl)) :
    List Unit → List String → String → Option String → Except LayoutErr String
  | _, _, content, none => .ok content
  | [], _, _, some _ => .error .fuelOut
  | _ :: budget, visited, content, some name =>
    if name ∈ visited then .error (.layoutCycle name)
    else
      match lookupKey name stack with
      | none => .ok content
      | some l => layoutsWrap stack budget (name :: visited) (replaceBody content l.content) l.layout

/-- Modelled from the spec: entry point of the external `layouts` module as
called by `applyLayout` (`layouts(template.content, layout, stack, locals)`),
with a step budget of one unit per stack entry plus one. -/
def layouts (content : String) (layout : Option String) (stack : List (String × Tmpl)) :
    Except LayoutErr String :=
  layoutsWrap stack (() :: stack.map fun _ => ()) [] content layout

/-- Locals object threaded through layout application: a `layout` override
and the `defaultLayout` opt-out flag cleared for partials. -/
structure LLocals where
  layout : Option String := none
  defaultLayout : Bool := true
deriving DecidableEq

/-- Modelled from the spec: `utils.getLayout` lives in `lib/`, which is not
under src/. Spec §4.6: "template's own `layout` field, else locals `layout`,
else global default layout, else none"; the global default is withheld when
`defaultLayout` has been disabled (partials opt out of the global default
layout, §4.6). -/
def getLayout (t : Tmpl) (locals : LLocals) (defLayout : Option String) : Option String :=
  match t.layout with
  | some l => some l
  | none =>
    match locals.layout with
    | some l => some l
    | none => if locals.defaultLayout then defLayout else none

/-- Embedding of `Template.prototype.applyLayout` (src/index.js 531-563):
an already-applied record returns its content unchanged; otherwise the
`layoutApplied` flag is set, partials opt out of the default layout, the
starting layout name is resolved (with the optional `layoutExt` suffix
appended), and the merged layout stack wraps the content. Returns the
wrapping result together with the updated record; the delimiter plumbing
(`locals.delims = locals.layoutDelims || locals.delims`) only feeds the
modelled default-delimiter substitution and is not carried separately. -/
def applyLayout (layoutExt defLayout : Option String) (stack : List (String × Tmpl))
    (t : Tmpl) (locals : LLocals) : Except LayoutErr String × Tmpl :=
  if t.options.layoutApplied then (.ok t.content, t)
  else
    let t' := { t with options := { t.options with layoutApplied := true } }
    let locals' := if t'.options.isPartial then { locals with defaultLayout := false } else locals
    let layout := getLayout t' locals' defLayout
    let layout' :=
      match layoutExt with
      | none => layout
      | some e => layout.map fun l => l ++ (match e.toList with | '.' :: _ => e | _ => "." ++ e)
    (layouts t'.content layout' stack, t')

/-- Embedding of `Template.prototype.mergeType` (src/index.js 1405-1423):
merge the given collections into one object; the reversed assignment loop of
the source makes the first collection in the list win on key collisions,
modelled by concatenation with first-match lookup. -/
def mergeType (views : List (String × List (String × Tmpl))) :
    List String → List (String × Tmpl)
  | [] => []
  | c :: rest => ((lookupKey c views).getD []) ++ mergeType views rest

/-- Value of the `mergeLayouts` option: merge all layout-role collections
(the default), an explicit ordered subset, or only the `layouts` collection
(option set to `false`). A function-valued override is out of scope. -/
inductive MergeLayoutsOpt where
  | all
  | only (collections : List String)
  | off

/-- Embedding of `Template.prototype.mergeLayouts` (src/index.js 1436-1457).
The `mergeTypeContext` recording of each layout's locals/data is a
context-cache side effect that does not change the returned stack and is
modelled with the partials context of `mergeContext` instead. -/
def mergeLayouts (typeLayout : List String) (views : List (String × List (String × Tmpl))) :
    MergeLayoutsOpt → List (String × Tmpl)
  | .all => mergeType views typeLayout
  | .only cs => mergeType views cs
  | .off => (lookupKey "layouts" views).getD []

/-- Concrete layout `a` of the spec's layout-chain test case. -/
def layoutA : Tmpl := { content := "a {%body%} a", layout := some "b" }

/-- Concrete layout `b` of the spec's layout-chain test case. -/
def layoutB : Tmpl := { content := "b {%body%} b", layout := some "base" }

/-- Concrete layout `base` of the spec's layout-chain test case. -/
def layoutBase : Tmpl := { content := "outer {%body%} outer" }

/-- Concrete page of the spec's layout-chain test case. -/
def pageInner : Tmpl := { content := "inner", layout := some "a" }

/-- View store holding the three layouts of the layout-chain test case in a
single `layouts` collection. -/
def demoViews : List (String × List (String × Tmpl)) :=
  [("layouts", [("a", layoutA), ("b", layoutB), ("base", layoutBase)])]

/-- A render context: a finite string-keyed mapping. -/
abbrev Ctx (V : Type) := String → Option V

/-- Lodash `merge(dst, src)` observed at a flat key: the source wins on
collision. The recursive descent into nested mappings happens per key and is
not needed at the flat keys the claims quantify over. -/
def jsMerge {V : Type} (dst src : Ctx V) : Ctx V := fun k =>
  match src k with
  | some v => some v
  | none => dst k

/-- The empty object as a context. -/
def emptyCtx {V : Type} : Ctx V := fun _ => none

/-- A one-key object as a context. -/
def singleCtx {V : Type} (key : String) (v : V) : Ctx V :=
  fun k => if k = key then some v else none

/-- Slice of a template record read by `mergeContext`: its `data` and
`locals` objects. -/
structure CTmpl (V : Type) where
  data : Ctx V
  locals : Ctx V

/-- Embedding of `Template.prototype.mergeContext` (src/index.js 2206-2231),
without a custom `mergeContext` option override. `cacheData` is the global
`this.cache.data`; `partialsCtx` is `this.cache._context.partials` as
populated from partial templates' locals/data by `mergeTypeContext`. In the
source, `merge(context, this.mergePartials(context))` merges the context
object with itself (the partial content collected by `mergePartials` lives
under `context.options`), an identity at data keys, and
`merge(context.layouts || {}, this.cache.layouts)` writes into the `layouts`
sub-object only; both are kept as identity steps here. -/
def mergeContext {V : Type} (preferLocals : Bool) (cacheData partialsCtx : Ctx V)
    (t : CTmpl V) (locals : Ctx V) : Ctx V :=
  let context := jsMerge emptyCtx cacheData
  let context :=
    if preferLocals then jsMerge (jsMerge context t.data) t.locals
    else jsMerge (jsMerge context t.locals) t.data
  let context := jsMerge context context
  let context := jsMerge context partialsCtx
  jsMerge context locals

/-- JavaScript `||` on optional strings: null/undefined and the empty string
are falsy; the last operand is taken as-is. -/
def jsOr : Option String → Option String → Option String
  | some s, b => if s = "" then b else some s
  | none, b => b

/-- Slice of `template.options` read by `getExt`: `_engine` (set by
`.create()`/`.load()` from a collection-level engine option) and `engine`. -/
structure ExtOpts where
  _engine : Option String := none
  engine : Option String := none
deriving DecidableEq

/-- Slice of `template.locals` read by `getExt`. -/
structure ExtLocals where
  engine : Option String := none
deriving DecidableEq

/-- Slice of a template record read by `getExt`; `locals` may be absent
(the source runs `template.locals = template.locals || {}` first). -/
structure ExtTmpl where
  path : String := ""
  engine : Option String := none
  ext : Option String := none
  locals : Option ExtLocals := none
  options : ExtOpts := {}
deriving DecidableEq

/-- Slice of the render-call locals object read by `getExt`. -/
structure RenderLocals where
  engine : Option String := none
  ext : Option String := none
deriving DecidableEq

/-- Characters of the final path segment (after the last `/`). -/
def lastSegment (cs : List Char) : List Char :=
  cs.foldl (fun acc c => if c = '/' then [] else acc ++ [c]) []

/-- Embedding of node's posix `path.extname` as used by `getExt`: the suffix
of the basename from its last dot; empty when there is no dot, when the only
dot leads the basename (dotfiles), or when the basename is all dots. -/
def extname (p : String) : String :=
  let base := lastSegment p.toList
  if base.all (fun c => c = '.') then ""
  else if base.contains '.' then
    let revTail := base.reverse.takeWhile (fun c => c ≠ '.')
    if revTail.length + 1 = base.length then "" else String.mk ('.' :: revTail.reverse)
  else ""

/-- Embedding of `Template.prototype.getExt` (src/index.js 813-838), without
a custom `getExt` option override. The source chain is
`template.options._engine || template.locals.engine || template.options.engine
|| locals.engine || locals.ext || template.engine || template.ext
|| path.extname(template.path) || this.option('viewEngine')`, followed by
dot-normalisation of a non-null result. -/
def getExt (viewEngine : Option String) (t : ExtTmpl) (locals : RenderLocals) : Option String :=
  let tLocals := t.locals.getD {}
  let ext :=
    jsOr t.options._engine <| jsOr tLocals.engine <| jsOr t.options.engine <|
    jsOr locals.engine <| jsOr locals.ext <| jsOr t.engine <| jsOr t.ext <|
    jsOr (some (extname t.path)) viewEngine
  match ext with
  | none => none
  | some e => some (match e.toList with | '.' :: _ => e | _ => "." ++ e)

/-- The extension-selection precedence exactly as the specification states
it: explicit per-render engine override, then the template-level engine
option, then locals-provided engine/ext, then the template's own declared
engine/ext field, then the extension of the path, then the global default
engine option. Stated from the spec's words for comparison with `getExt`. -/
def getExtClaimOrder (viewEngine : Option String) (t : ExtTmpl) (locals : RenderLocals) :
    Option String :=
  let ext :=
    jsOr t.options._engine <| jsOr t.options.engine <|
    jsOr locals.engine <| jsOr locals.ext <| jsOr t.engine <| jsOr t.ext <|
    jsOr (some (extname t.path)) viewEngine
  match ext with
  | none => none
  | some e => some (match e.toList with | '.' :: _ => e | _ => "." ++ e)

/-- The amended precedence: the engine stored on the template's own `locals`
is consulted right after the per-render `_engine` override and before the
template-level engine option; the rest of the chain is as the spec states. -/
def getExtAmended (viewEngine : Option String) (t : ExtTmpl) (locals : RenderLocals) :
    Option String :=
  let ext :=
    jsOr t.options._engine <| jsOr ((t.locals.getD {}).engine) <| jsOr t.options.engine <|
    jsOr locals.engine <| jsOr locals.ext <| jsOr t.engine <| jsOr t.ext <|
    jsOr (some (extname t.path)) viewEngine
  match ext with
  | none => none
  | some e => some (match e.toList with | '.' :: _ => e | _ => "." ++ e)

/-- Template whose own `locals.engine` and `options.engine` disagree,
separating the source's precedence from the spec's stated precedence. -/
def extDemo : ExtTmpl :=
  { path := "home", locals := some { engine := some "foo" }, options := { engine := some "bar" } }

/-- JavaScript Error values thrown or passed around the render pipeline. -/
inductive JsErr where
  | methodNotFound (method name : String)
  | engineErr (msg : String)
deriving DecidableEq

/-- Options object handed to an engine adapter. -/
abbrev EngineOpts := List (String × String)

/-- An engine adapter: optional `renderSync` and `render` entry points
(§3 "Engine adapter"). The async entry point yields either a synchronous
throw (outer error) or the value it passes to its callback (inner value:
error-first). -/
structure EngineAdapter where
  name : String := ""
  renderSync : Option (String → EngineOpts → Except JsErr String) := none
  render : Option (String → EngineOpts → Except JsErr (Except JsErr String)) := none

/-- Outcome of the synchronous render entry point as seen by its caller:
a thrown error, or a returned value (a string, or the caught Error object
returned as a value). -/
inductive SyncOutcome where
  | thrown (e : JsErr)
  | returned (v : Except JsErr String)

/-- Embedding of `Template.prototype.renderSync` (src/index.js 1986-1996):
a missing `renderSync` method throws; an error thrown by the engine is
caught and returned as a value (`catch (err) { return err; }`). -/
def renderSync (engine : EngineAdapter) (content : String) (options : EngineOpts) :
    SyncOutcome :=
  match engine.renderSync with
  | none => .thrown (.methodNotFound "renderSync" engine.name)
  | some f =>
    match f content options with
    | .ok s => .returned (.ok s)
    | .error e => .returned (.error e)

/-- Outcome of the asynchronous render entry point: a synchronous throw
escaping `renderAsync`, or a single error-first callback delivery. -/
inductive AsyncOutcome where
  | thrown (e : JsErr)
  | calledBack (r : Except JsErr String)

/-- Embedding of `Template.prototype.renderAsync` (src/index.js 2010-2037):
a missing `render` method throws before the try block; inside it, a
synchronous engine throw is caught and delivered to the callback, an
engine-reported error is delivered to the callback, and a successful result
passes through async-helper resolution (`resolve`, the external helper-cache
collaborator) before the success callback. -/
def renderAsync (resolve : String → Except JsErr String) (engine : EngineAdapter)
    (content : String) (options : EngineOpts) : AsyncOutcome :=
  match engine.render with
  | none => .thrown (.methodNotFound "render" engine.name)
  | some f =>
    match f content options with
    | .error e => .calledBack (.error e)
    | .ok (.error e) => .calledBack (.error e)
    | .ok (.ok res) =>
      match resolve res with
      | .error e => .calledBack (.error e)
      | .ok s => .calledBack (.ok s)

/-- The per-template type context `extend({}, locals, data)` recorded by
`mergeTypeContext` and handed to `applyLayout` for each partial: its
`layout` key (data over locals) can drive layout resolution. -/
def typeContextOf (t : Tmpl) : LLocals :=
  { layout :=
      match lookupKey "layout" t.data with
      | some l => some l
      | none => lookupKey "layout" t.locals,
    defaultLayout := true }

/-- Stored-record effect of `Template.prototype.mergePartials`
(src/index.js 1479-1513) on one partial collection: each stored partial's
`content` is overwritten in place with its layout-applied content
(`value.content = this.applyLayout(value, ...)`); a layout error aborts the
loop (the JavaScript exception propagates), leaving later records untouched.
The content buckets collected onto `locals.options` are not needed by the
claims settled here. -/
def mergePartials (layoutExt defLayout : Option String) (stack : List (String × Tmpl)) :
    List (String × Tmpl) → Option LayoutErr × List (String × Tmpl)
  | [] => (none, [])
  | (k, v) :: rest =>
    match applyLayout layoutExt defLayout stack v (typeContextOf v) with
    | (.error e, v') => (some e, (k, v') :: rest)
    | (.ok c, v') =>
      let r := mergePartials layoutExt defLayout stack rest
      (r.1, (k, { v' with content := c }) :: r.2)

/-- Stored-record effect of `Template.prototype.compileTemplate`
(src/index.js 1768-1809): `template.options.layout` is set from
`template.layout`, the layout is applied (setting `layoutApplied`), and the
compiled function is cached on `template.fn`; on a layout error the
JavaScript exception propagates and `fn` is not written. Engine lookup,
delimiter handling and helper binding do not touch the stored record. -/
def compileTemplate (compile : String → String) (layoutExt defLayout : Option String)
    (stack : List (String × Tmpl)) (t : Tmpl) (locals : LLocals) : Tmpl :=
  let t₀ := { t with options := { t.options with layout := t.layout } }
  match applyLayout layoutExt defLayout stack t₀ locals with
  | (.error _, t') => t'
  | (.ok content, t') => { t' with fn := some (compile content) }

/-- Collection-registry slice of the `Template` instance state touched by
`create`/`setType`: the view store, the role lists (`this.type.*`) and the
subtype-to-plural association (`this.collection`). -/
structure AppViews where
  views : List (String × List (String × Tmpl)) := []
  typeRenderable : List String := []
  typeLayout : List String := []
  typePartial : List String := []
  collection : List (String × String) := []
deriving DecidableEq

/-- Role options passed to `create`. -/
structure CreateOpts where
  isRenderable : Bool := false
  isLayout : Bool := false
  isPartial : Bool := false
deriving DecidableEq

/-- Embedding of `Template.prototype.setType` (src/index.js 1344-1364):
record the subtype-to-plural association, push the plural onto each role
list, defaulting to the partial role when no role option is set. -/
def setType (st : AppViews) (subtype plural : String) (opts : CreateOpts) :
    AppViews × CreateOpts :=
  let st := { st with collection := (subtype, plural) :: st.collection }
  let st :=
    if opts.isRenderable then { st with typeRenderable := st.typeRenderable ++ [plural] } else st
  let st := if opts.isLayout then { st with typeLayout := st.typeLayout ++ [plural] } else st
  if opts.isPartial || (!opts.isRenderable && !opts.isLayout) then
    ({ st with typePartial := st.typePartial ++ [plural] }, { opts with isPartial := true })
  else (st, opts)

/-- Plural-name normalisation of `create`: append `s` when no plural is
given. -/
def pluralName (subtype : String) (plural : Option String) : String :=
  plural.getD (subtype ++ "s")

/-- Registry effect of `Template.prototype.create` (src/index.js 1633-1680):
`this.views[plural] = this.views[plural] || {}` keeps an existing collection
map untouched and installs an empty one otherwise, then `setType` records
the roles. The generated accessor methods and default-helper registration do
not touch the view store. -/
def create (st : AppViews) (subtype : String) (plural : Option String) (opts : CreateOpts) :
    AppViews :=
  let pl := pluralName subtype plural
  let st :=
    if (lookupKey pl st.views).isSome then st
    else { st with views := st.views ++ [(pl, [])] }
  (setType st subtype pl opts).1

/-- Embedding of `Template.prototype.defaultHelper` (src/index.js 1034-1056),
the sync helper generated for a partial-role subtype: the key is looked up
directly in the collection map (`self.views[plural][key]`); a miss is
reported through the debug channel and renders as the empty string — the
`strict errors` setting is not consulted; on a hit the record is rendered
with the helper's bound context merged with the call locals, and an Error
result value is re-thrown (`if (content instanceof Error) throw content`). -/
def defaultHelper (strictErrors : Bool) (views : List (String × Tmpl))
    (renderTemplate : Tmpl → Ctx String → Except JsErr String)
    (helperContext callLocals : Ctx String) (key : String) : Except JsErr String :=
  match lookupKey key views with
  | none => .ok ""
  | some pt =>
    match renderTemplate pt (jsMerge helperContext callLocals) with
    | .error e => .error e
    | .ok content => .ok content

/-- Embedding of `Template.prototype.defaultAsyncHelper` (src/index.js
1066-1100): same direct lookup; a miss answers the callback with
`(null, '')` regardless of `strict errors`; a hit renders through the
subtype's `renderSubtype` render function and forwards its error-first
callback. -/
def defaultAsyncHelper (strictErrors : Bool) (views : List (String × Tmpl))
    (renderByKey : String → Ctx String → Except JsErr String)
    (helperContext callLocals : Ctx String) (key : String) : Except JsErr String :=
  match lookupKey key views with
  | none => .ok ""
  | some _ => renderByKey key (jsMerge helperContext callLocals)

/-- Layout stack with a single bracketing layout, used to exhibit the
in-place content rewrite of stored partials. -/
def partialLayoutStack : List (String × Tmpl) := [("l", { content := "[{%body%}]" })]

/-- A stored partial-role record declaring layout `l`. -/
def storedPartialTmpl : Tmpl :=
  { content := "P", layout := some "l", options := { isPartial := true } }

/-- A stored template record used by registry and helper witnesses. -/
def demoTmpl : Tmpl := { content := "Hello" }

/-- Registry state already holding a `pages` collection with one template. -/
def demoApp : AppViews := { views := [("pages", [("home", demoTmpl)])] }

/-- A record whose layout has already been applied. -/
def appliedTmpl : Tmpl := { content := "done", options := { layoutApplied := true } }

/-- Engine adapter with no render capability at all. -/
def noopEngine : EngineAdapter := { name := "noop" }

/-- Engine adapter whose sync entry point throws. -/
def boomSyncEngine : EngineAdapter :=
  { name := "b1", renderSync := some fun _ _ => .error (.engineErr "x1") }

/-- Engine adapter whose async entry point throws synchronously. -/
def boomThrowEngine : EngineAdapter :=
  { name := "b2", render := some fun _ _ => .error (.engineErr "x2") }

/-- Engine adapter whose async entry point reports an error to its
callback. -/
def boomCbEngine : EngineAdapter :=
  { name := "b3", render := some fun _ _ => .ok (.error (.engineErr "x3")) }

theorem mem_keys_of_lookupKey {β : Type} {name : String} {l : β}
    {stack : List (String × β)} (h : lookupKey name stack = some l) :
    name ∈ stack.map Prod.fst := by
  induction stack with
  | nil => simp [lookupKey] at h
  | cons hd tl ih =>
    obtain ⟨k, v⟩ := hd
    by_cases hk : name = k
    · simp [hk]
    · simp only [lookupKey, if_neg hk] at h
      simp [List.mem_cons, ih h]

theorem unvisited_cons_lt {stack : List (String × Tmpl)} {visited : List String}
    {name : String} (hmem : name ∈ stack.map Prod.fst) (hnv : name ∉ visited) :
    (unvisited stack (name :: visited)).length < (unvisited stack visited).length := by
  have hsub : List.Sublist (unvisited stack (name :: visited)) (unvisited stack visited) := by
    apply List.monotone_filter_right
    intro a ha
    simp only [decide_eq_true_eq, List.mem_cons, not_or] at ha ⊢
    exact ha.2
  refine Nat.lt_of_le_of_ne hsub.length_le ?_
  intro heq
  have heq2 := hsub.eq_of_length heq
  have hname : name ∈ unvisited stack visited := by
    unfold unvisited
    rw [List.mem_filter]
    exact ⟨hmem, by simp [hnv]⟩
  rw [← heq2] at hname
  unfold unvisited at hname
  rw [List.mem_filter] at hname
  have h2 := hname.2
  simp at h2

theorem layoutsWrap_ne_fuelOut (stack : List (String × Tmpl)) :
    ∀ (budget : List Unit) (visited : List String) (content : String) (cur : Option String),
      (unvisited stack visited).length < budget.length →
      layoutsWrap stack budget visited content cur ≠ .error .fuelOut := by
  intro budget
  induction budget with
  | nil => intro visited content cur h; simp at h
  | cons u rest ih =>
    intro visited content cur h
    cases cur with
    | none => simp [layoutsWrap]
    | some name =>
      by_cases hv : name ∈ visited
      · simp [layoutsWrap, hv]
      · cases hl : lookupKey name stack with
        | none => simp [layoutsWrap, hv, hl]
        | some l =>
          have hlt := unvisited_cons_lt (mem_keys_of_lookupKey hl) hv
          have hlen : (unvisited stack (name :: visited)).length < rest.length := by
            simp only [List.length_cons] at h
            omega
          simp [layoutsWrap, hv, hl]
          exact ih _ _ _ hlen

theorem applyLayout_snd (layoutExt defLayout : Option String)
    (stack : List (String × Tmpl)) (t : Tmpl) (locals : LLocals) :
    (applyLayout layoutExt defLayout stack t locals).2 =
      { t with options := { t.options with layoutApplied := true } } := by
  by_cases h : t.options.layoutApplied = true
  · obtain ⟨c, l, d, lo, f, o⟩ := t
    obtain ⟨la, ip, lay⟩ := o
    simp only at h
    subst h
    simp [applyLayout]
  · simp [applyLayout, h]

theorem setType_views (st : AppViews) (subtype plural : String) (opts : CreateOpts) :
    (setType st subtype plural opts).1.views = st.views := by
  obtain ⟨r, l, p⟩ := opts
  cases r <;> cases l <;> cases p <;> simp [setType]

/-- C1: a page with content `inner` and layout chain `a -> b -> base`, where
layout `a` is `a {%body%} a`, layout `b` is `b {%body%} b` and `base` is
`outer {%body%} outer`, renders through `applyLayout` (over the stack merged
by `mergeLayouts`) to exactly `outer b a inner a b outer`: each ancestor's
body placeholder is replaced by the accumulated content, innermost first. -/
theorem applyLayout_chain_concrete :
    (applyLayout none none (mergeLayouts ["layouts"] demoViews .all) pageInner {}).1
      = .ok "outer b a inner a b outer" := rfl

/-- C2: with global data `x=1`, template data `x=2`, template locals `x=3`
and call-time locals `x=4`, the context built by `mergeContext` has `x = 4`;
with call-time locals omitted, `x = 2` when `preferLocals` is disabled (data
over locals, the default) and `x = 3` when it is enabled; and call-time
locals always win on every key collision. -/
theorem mergeContext_precedence :
    (∀ (preferLocals : Bool) (partialsCtx : Ctx Nat),
      mergeContext preferLocals (singleCtx "x" 1) partialsCtx
        ⟨singleCtx "x" 2, singleCtx "x" 3⟩ (singleCtx "x" 4) "x" = some 4)
  ∧ (∀ partialsCtx : Ctx Nat, partialsCtx "x" = none →
      mergeContext false (singleCtx "x" 1) partialsCtx
        ⟨singleCtx "x" 2, singleCtx "x" 3⟩ emptyCtx "x" = some 2)
  ∧ (∀ partialsCtx : Ctx Nat, partialsCtx "x" = none →
      mergeContext true (singleCtx "x" 1) partialsCtx
        ⟨singleCtx "x" 2, singleCtx "x" 3⟩ emptyCtx "x" = some 3)
  ∧ (∀ (V : Type) (preferLocals : Bool) (cacheData partialsCtx : Ctx V) (t : CTmpl V)
      (locals : Ctx V) (k : String) (v : V), locals k = some v →
      mergeContext preferLocals cacheData partialsCtx t locals k = some v) := by
  refine ⟨?_, ?_, ?_, ?_⟩
  · intro preferLocals partialsCtx
    cases preferLocals <;> rfl
  · intro partialsCtx hp
    simp [mergeContext, jsMerge, singleCtx, emptyCtx, hp]
  · intro partialsCtx hp
    simp [mergeContext, jsMerge, singleCtx, emptyCtx, hp]
  · intro V preferLocals cacheData partialsCtx t locals k v hl
    simp [mergeContext, jsMerge, hl]

/-- Witness for C2 at concrete inputs: the omitted-call-locals cases at the
empty partials context, and the always-wins clause at key `y`. -/
theorem mergeContext_precedence_witness :
    mergeContext false (singleCtx "x" 1) emptyCtx
      ⟨singleCtx "x" 2, singleCtx "x" 3⟩ emptyCtx "x" = some 2
  ∧ mergeContext true (singleCtx "x" 1) emptyCtx
      ⟨singleCtx "x" 2, singleCtx "x" 3⟩ emptyCtx "x" = some 3
  ∧ mergeContext true (singleCtx "x" 1) emptyCtx
      ⟨singleCtx "x" 2, singleCtx "x" 3⟩ (singleCtx "y" 7) "y" = some 7 :=
  ⟨mergeContext_precedence.2.1 emptyCtx rfl,
   mergeContext_precedence.2.2.1 emptyCtx rfl,
   mergeContext_precedence.2.2.2 Nat true (singleCtx "x" 1) emptyCtx
     ⟨singleCtx "x" 2, singleCtx "x" 3⟩ (singleCtx "y" 7) "y" 7 rfl⟩

/-- C3 counterexample: a template whose `locals.engine` is `foo` and whose
`options.engine` is `bar` resolves to `.foo` in the source, while the
claim's stated precedence (template-level engine option before
locals-provided engine) resolves it to `.bar` — the claim's order is wrong
on the code. -/
theorem getExt_order_counterexample :
    getExt (some "*") extDemo {} = some ".foo"
  ∧ getExtClaimOrder (some "*") extDemo {} = some ".bar" := ⟨rfl, rfl⟩

/-- C3 (amended): the extension used to select the engine is chosen by first
non-null (and non-empty) wins over: explicit per-render engine override,
then the engine stored on the template's own locals, then the template-level
engine option, then locals-provided engine/ext, then the template's own
declared engine/ext field, then the extension of the template's path, then
the global default engine option. -/
theorem getExt_order_amended (viewEngine : Option String) (t : ExtTmpl)
    (locals : RenderLocals) :
    getExt viewEngine t locals = getExtAmended viewEngine t locals := rfl

/-- C4: a template whose declared layout chain revisits an already-visited
layout — a layout that is its own layout, or a chain `a -> b -> a` — makes
`applyLayout` raise the layout-cycle error, and layout application never
exhausts its step budget (it terminates on every input). -/
theorem applyLayout_cycle_error (a b ca cb c : String) (hab : a ≠ b) :
    (applyLayout none none [(a, { content := ca, layout := some a })]
        { content := c, layout := some a } {}).1 = .error (.layoutCycle a)
  ∧ (applyLayout none none
        [(a, { content := ca, layout := some b }), (b, { content := cb, layout := some a })]
        { content := c, layout := some a } {}).1 = .error (.layoutCycle a)
  ∧ ∀ (layoutExt defLayout : Option String) (stack : List (String × Tmpl))
      (t : Tmpl) (ls : LLocals),
      (applyLayout layoutExt defLayout stack t ls).1 ≠ .error .fuelOut := by
  refine ⟨?_, ?_, ?_⟩
  · simp [applyLayout, getLayout, layouts, layoutsWrap, lookupKey]
  · simp [applyLayout, getLayout, layouts, layoutsWrap, lookupKey, hab, Ne.symm hab]
  · intro layoutExt defLayout stack t ls
    by_cases hap : t.options.layoutApplied = true
    · simp [applyLayout, hap]
    · simp only [applyLayout, hap]
      simp only [Bool.false_eq_true, if_false, layouts]
      apply layoutsWrap_ne_fuelOut
      have hle : (unvisited stack []).length ≤ stack.length := by
        have h2 := List.length_filter_le
          (fun k => decide (k ∉ ([] : List String))) (stack.map Prod.fst)
        simpa [unvisited] using h2
      simp only [List.length_cons, List.length_map]
      omega

/-- Witness for C4 at concrete layouts: a self-cycle on `a` and the chain
`a -> b -> a` both raise the layout-cycle error. -/
theorem applyLayout_cycle_error_witness :
    (applyLayout none none [("a", { content := "A {%body%} A", layout := some "a" })]
        { content := "inner", layout := some "a" } {}).1 = .error (.layoutCycle "a")
  ∧ (applyLayout none none
        [("a", { content := "A {%body%} A", layout := some "b" }),
         ("b", { content := "B", layout := some "a" })]
        { content := "inner", layout := some "a" } {}).1 = .error (.layoutCycle "a") := by
  have h := applyLayout_cycle_error "a" "b" "A {%body%} A" "B" "inner" (by decide)
  exact ⟨h.1, h.2.1⟩

/-- C5 counterexample: when the resolved engine lacks the async `render`
method, an asynchronous render raises a synchronous throw instead of
delivering the error as the callback's first argument, contrary to the
claim's asynchronous clause. -/
theorem renderAsync_missing_method_throws :
    Template.renderAsync Except.ok noopEngine "inner" []
      = .thrown (.methodNotFound "render" "noop") := rfl

/-- C5 (amended): a render whose resolved engine lacks the needed rendering
capability fails fatally and never hangs in both calling conventions, in
both cases by a synchronous throw: the synchronous path throws when
`renderSync` is missing, and the asynchronous path also throws (before its
try block, so the callback is not invoked) when `render` is missing. -/
theorem missing_engine_method_fatal :
    (∀ (engine : EngineAdapter) (content : String) (options : EngineOpts),
      engine.renderSync = none →
      Template.renderSync engine content options
        = .thrown (.methodNotFound "renderSync" engine.name))
  ∧ (∀ (resolve : String → Except JsErr String) (engine : EngineAdapter)
      (content : String) (options : EngineOpts),
      engine.render = none →
      Template.renderAsync resolve engine content options
        = .thrown (.methodNotFound "render" engine.name)) := by
  constructor
  · intro engine content options h
    simp [Template.renderSync, h]
  · intro resolve engine content options h
    simp [Template.renderAsync, h]

/-- Witness for C5 at the capability-free engine. -/
theorem missing_engine_method_fatal_witness :
    Template.renderSync noopEngine "c" [] = .thrown (.methodNotFound "renderSync" "noop")
  ∧ Template.renderAsync Except.ok noopEngine "c" []
      = .thrown (.methodNotFound "render" "noop") :=
  ⟨missing_engine_method_fatal.1 noopEngine "c" [] rfl,
   missing_engine_method_fatal.2 Except.ok noopEngine "c" [] rfl⟩

/-- C6 counterexample: when the engine's sync entry point throws, the
synchronous render does not surface the error by throwing — the catch block
returns the Error object as the render result value, contrary to the claim's
synchronous clause. -/
theorem renderSync_engine_error_returned :
    Template.renderSync boomSyncEngine "inner" []
      = .returned (.error (.engineErr "x1")) := rfl

/-- C6 (amended): an engine error is never silently swallowed: in
synchronous mode the thrown error is caught and returned to the caller as
the result value (an Error object) rather than re-thrown, and in
asynchronous mode the error — whether thrown synchronously by the adapter or
reported through its callback — is delivered as the callback's first
argument, without also being thrown. -/
theorem engine_error_propagated :
    (∀ (engine : EngineAdapter) (f : String → EngineOpts → Except JsErr String)
      (e : JsErr) (content : String) (options : EngineOpts),
      engine.renderSync = some f → f content options = .error e →
      Template.renderSync engine content options = .returned (.error e))
  ∧ (∀ (resolve : String → Except JsErr String) (engine : EngineAdapter)
      (f : String → EngineOpts → Except JsErr (Except JsErr String))
      (e : JsErr) (content : String) (options : EngineOpts),
      engine.render = some f → f content options = .error e →
      Template.renderAsync resolve engine content options = .calledBack (.error e))
  ∧ (∀ (resolve : String → Except JsErr String) (engine : EngineAdapter)
      (f : String → EngineOpts → Except JsErr (Except JsErr String))
      (e : JsErr) (content : String) (options : EngineOpts),
      engine.render = some f → f content options = .ok (.error e) →
      Template.renderAsync resolve engine content options = .calledBack (.error e)) := by
  refine ⟨?_, ?_, ?_⟩
  · intro engine f e content options h1 h2
    simp [Template.renderSync, h1, h2]
  · intro resolve engine f e content options h1 h2
    simp [Template.renderAsync, h1, h2]
  · intro resolve engine f e content options h1 h2
    simp [Template.renderAsync, h1, h2]

/-- Witness for C6 at three concrete engines: a sync thrower, an async
synchronous thrower and an async callback error reporter. -/
theorem engine_error_propagated_witness :
    Template.renderSync boomSyncEngine "c" [] = .returned (.error (.engineErr "x1"))
  ∧ Template.renderAsync Except.ok boomThrowEngine "c" []
      = .calledBack (.error (.engineErr "x2"))
  ∧ Template.renderAsync Except.ok boomCbEngine "c" []
      = .calledBack (.error (.engineErr "x3")) :=
  ⟨engine_error_propagated.1 boomSyncEngine _ _ "c" [] rfl rfl,
   engine_error_propagated.2.1 Except.ok boomThrowEngine _ _ "c" [] rfl rfl,
   engine_error_propagated.2.2 Except.ok boomCbEngine _ _ "c" [] rfl rfl⟩

/-- C7 counterexample: the `mergePartials` pass of rendering overwrites a
stored partial record's `content` in place with its layout-applied content —
the stored record's content is mutated by rendering, contrary to the
claim. -/
theorem mergePartials_mutates_partial_content :
    storedPartialTmpl.content = "P"
  ∧ ((Template.mergePartials none none partialLayoutStack
        [("p", storedPartialTmpl)]).2.map fun kv => kv.2.content) = ["[P]"] :=
  ⟨rfl, rfl⟩

/-- C7 (amended): rendering never mutates a stored record's `data` or
`locals` (nor its cached `fn` through the partials pass), and
`compileTemplate` writes only the compiled function and option flags onto
the record, preserving `content`, `data` and `locals`; but the partials pass
does overwrite each stored partial's `content` in place with its
layout-applied content. -/
theorem render_store_frame :
    (∀ (layoutExt defLayout : Option String) (stack ps : List (String × Tmpl)),
      ((Template.mergePartials layoutExt defLayout stack ps).2.map
        fun kv => (kv.1, kv.2.data, kv.2.locals, kv.2.fn))
        = ps.map fun kv => (kv.1, kv.2.data, kv.2.locals, kv.2.fn))
  ∧ (∀ (compile : String → String) (layoutExt defLayout : Option String)
      (stack : List (String × Tmpl)) (t : Tmpl) (locals : LLocals),
      (compileTemplate compile layoutExt defLayout stack t locals).content = t.content
      ∧ (compileTemplate compile layoutExt defLayout stack t locals).data = t.data
      ∧ (compileTemplate compile layoutExt defLayout stack t locals).locals = t.locals) := by
  constructor
  · intro layoutExt defLayout stack ps
    induction ps with
    | nil => simp [Template.mergePartials]
    | cons kv rest ih =>
      obtain ⟨k, v⟩ := kv
      have hsnd := applyLayout_snd layoutExt defLayout stack v (typeContextOf v)
      cases hres : applyLayout layoutExt defLayout stack v (typeContextOf v) with
      | mk res v' =>
        rw [hres] at hsnd
        simp only at hsnd
        subst hsnd
        cases res with
        | error e => simp [Template.mergePartials, hres]
        | ok c => simp [Template.mergePartials, hres, ih]
  · intro compile layoutExt defLayout stack t locals
    have hsnd := applyLayout_snd layoutExt defLayout stack
      { t with options := { t.options with layout := t.layout } } locals
    cases hres : applyLayout layoutExt defLayout stack
        { t with options := { t.options with layout := t.layout } } locals with
    | mk res t' =>
      rw [hres] at hsnd
      simp only at hsnd
      subst hsnd
      cases res with
      | error e => simp [compileTemplate, hres]
      | ok c => simp [compileTemplate, hres]

/-- C8: re-declaring an existing collection name through `create` succeeds
and leaves the whole view store — in particular every previously stored
template of that collection — untouched. -/
theorem create_preserves_existing_templates (st : AppViews) (subtype : String)
    (plural : Option String) (opts : CreateOpts) (ts : List (String × Tmpl))
    (h : lookupKey (pluralName subtype plural) st.views = some ts) :
    (create st subtype plural opts).views = st.views
    ∧ lookupKey (pluralName subtype plural) (create st subtype plural opts).views = some ts := by
  have hsome : (lookupKey (pluralName subtype plural) st.views).isSome = true := by
    rw [h]; rfl
  have hviews : (create st subtype plural opts).views = st.views := by
    simp [create, hsome, setType_views]
  exact ⟨hviews, by rw [hviews]; exact h⟩

/-- Witness for C8: re-declaring the `page`/`pages` collection keeps the
stored `home` template in place. -/
theorem create_preserves_existing_templates_witness :
    (create demoApp "page" none { isRenderable := true }).views = demoApp.views
    ∧ lookupKey (pluralName "page" none)
        (create demoApp "page" none { isRenderable := true }).views
        = some [("home", demoTmpl)] :=
  create_preserves_existing_templates demoApp "page" none { isRenderable := true }
    [("home", demoTmpl)] rfl

/-- C9 counterexample: with `strict errors` enabled, invoking a generated
default helper (sync or async) with a key matching no stored template still
substitutes the empty string — the miss is not fatal, contrary to the
claim's strict-mode clause (the generated helpers never consult the
setting). -/
theorem defaultHelper_miss_not_strict_fatal :
    defaultHelper true [] (fun _ _ => .error (.engineErr "unused")) emptyCtx emptyCtx "nope"
      = .ok ""
  ∧ defaultAsyncHelper true [] (fun _ _ => .error (.engineErr "unused")) emptyCtx emptyCtx "nope"
      = .ok "" := ⟨rfl, rfl⟩

/-- C9 (amended): for the generated default helpers of a partial-role
collection, a key matching no stored template is always non-fatal — the miss
is reported and the empty string substituted, regardless of the
`strict errors` setting — and a key matching a stored template returns that
template's fully rendered content (the async helper forwarding the
error-first callback of the subtype renderer). -/
theorem defaultHelper_behavior :
    (∀ (strictErrors : Bool) (views : List (String × Tmpl))
      (render : Tmpl → Ctx String → Except JsErr String)
      (hc cl : Ctx String) (key : String),
      lookupKey key views = none →
      defaultHelper strictErrors views render hc cl key = .ok "")
  ∧ (∀ (strictErrors : Bool) (views : List (String × Tmpl))
      (renderByKey : String → Ctx String → Except JsErr String)
      (hc cl : Ctx String) (key : String),
      lookupKey key views = none →
      defaultAsyncHelper strictErrors views renderByKey hc cl key = .ok "")
  ∧ (∀ (strictErrors : Bool) (views : List (String × Tmpl))
      (render : Tmpl → Ctx String → Except JsErr String)
      (hc cl : Ctx String) (key : String) (pt : Tmpl) (c : String),
      lookupKey key views = some pt →
      render pt (jsMerge hc cl) = .ok c →
      defaultHelper strictErrors views render hc cl key = .ok c)
  ∧ (∀ (strictErrors : Bool) (views : List (String × Tmpl))
      (renderByKey : String → Ctx String → Except JsErr String)
      (hc cl : Ctx String) (key : String) (pt : Tmpl),
      lookupKey key views = some pt →
      defaultAsyncHelper strictErrors views renderByKey hc cl key
        = renderByKey key (jsMerge hc cl)) := by
  refine ⟨?_, ?_, ?_, ?_⟩
  · intro strictErrors views render hc cl key h
    simp [defaultHelper, h]
  · intro strictErrors views renderByKey hc cl key h
    simp [defaultAsyncHelper, h]
  · intro strictErrors views render hc cl key pt c h1 h2
    simp [defaultHelper, h1, h2]
  · intro strictErrors views renderByKey hc cl key pt h
    simp [defaultAsyncHelper, h]

/-- Witness for C9 at concrete inputs: misses on the empty store and hits on
a one-template store. -/
theorem defaultHelper_behavior_witness :
    defaultHelper false [] (fun _ _ => .ok "zz") emptyCtx emptyCtx "k" = .ok ""
  ∧ defaultAsyncHelper false [] (fun _ _ => .ok "zz") emptyCtx emptyCtx "k" = .ok ""
  ∧ defaultHelper false [("k", demoTmpl)] (fun t _ => .ok t.content) emptyCtx emptyCtx "k"
      = .ok "Hello"
  ∧ defaultAsyncHelper false [("k", demoTmpl)] (fun _ _ => .ok "R") emptyCtx emptyCtx "k"
      = .ok "R" :=
  ⟨defaultHelper_behavior.1 false [] (fun _ _ => .ok "zz") emptyCtx emptyCtx "k" rfl,
   defaultHelper_behavior.2.1 false [] (fun _ _ => .ok "zz") emptyCtx emptyCtx "k" rfl,
   defaultHelper_behavior.2.2.1 false [("k", demoTmpl)] (fun t _ => .ok t.content)
     emptyCtx emptyCtx "k" demoTmpl "Hello" rfl rfl,
   defaultHelper_behavior.2.2.2 false [("k", demoTmpl)] (fun _ _ => .ok "R")
     emptyCtx emptyCtx "k" demoTmpl rfl⟩

/-- C10: `applyLayout` is idempotent on a template record: every call leaves
the record with `layoutApplied` set; a call on a record whose flag is set
returns the record's content unchanged, for any layout stack (no search or
substitution happens); hence a second application on the updated record is
the identity on content. -/
theorem applyLayout_idempotent :
    (∀ (layoutExt defLayout : Option String) (stack : List (String × Tmpl))
      (t : Tmpl) (ls : LLocals),
      ((applyLayout layoutExt defLayout stack t ls).2).options.layoutApplied = true)
  ∧ (∀ (layoutExt defLayout : Option String) (stack : List (String × Tmpl))
      (t : Tmpl) (ls : LLocals),
      t.options.layoutApplied = true →
      applyLayout layoutExt defLayout stack t ls = (.ok t.content, t))
  ∧ (∀ (le dl le₂ dl₂ : Option String) (stack stack₂ : List (String × Tmpl))
      (t : Tmpl) (ls ls₂ : LLocals),
      applyLayout le₂ dl₂ stack₂ (applyLayout le dl stack t ls).2 ls₂
        = (.ok ((applyLayout le dl stack t ls).2).content,
           (applyLayout le dl stack t ls).2)) := by
  have h1 : ∀ (layoutExt defLayout : Option String) (stack : List (String × Tmpl))
      (t : Tmpl) (ls : LLocals),
      ((applyLayout layoutExt defLayout stack t ls).2).options.layoutApplied = true := by
    intro layoutExt defLayout stack t ls
    rw [applyLayout_snd]
  have h2 : ∀ (layoutExt defLayout : Option String) (stack : List (String × Tmpl))
      (t : Tmpl) (ls : LLocals),
      t.options.layoutApplied = true →
      applyLayout layoutExt defLayout stack t ls = (.ok t.content, t) := by
    intro layoutExt defLayout stack t ls h
    simp [applyLayout, h]
  exact ⟨h1, h2, fun le dl le₂ dl₂ stack stack₂ t ls ls₂ =>
    h2 le₂ dl₂ stack₂ _ ls₂ (h1 le dl stack t ls)⟩

/-- Witness for C10: an already-applied record passes through unchanged. -/
theorem applyLayout_idempotent_witness :
    applyLayout none none [] appliedTmpl {} = (.ok "done", appliedTmpl) :=
  applyLayout_idempotent.2.1 none none [] appliedTmpl {} rfl

end Template
